import Mathlib

/-!
Shallow embedding of the quantitative analytics engine of the
Financial-analytics repository, together with theorems settling the claims
about it.  Numbers are modelled exactly: Python/numpy floats become `ℚ`
(or `ℝ` where the code takes a square root), pandas series become `List ℚ`,
and the row loops of the strategy code become explicit recursion.

Source files embedded here:
- `src/models/algo_trading.py`  (indicators, strategies, metrics, trades)
- `src/models/portfolio.py`     (minimum-variance and max-Sharpe scan)
- `src/pages/5_Distributed_Lag_Model.py` (nested-model F statistic, weighted lag)
- `src/pages/3_VAR_VECM.py`     (Johansen cointegrating-rank count)
- `src/utils/data_loader.py`    (`get_returns`)
-/

set_option maxRecDepth 8000

namespace FinAnalytics

/-! ## Elementary statistics (pandas `Series.mean` / `Series.std` squared) -/

/-- Mean of a list of rationals, as `Series.mean` computes it on the
non-null window. -/
def mean (xs : List ℚ) : ℚ := xs.sum / (xs.length : ℚ)

/-- Sample variance with one delta degree of freedom, the square of the
pandas default `Series.std`. -/
def sampleVar (xs : List ℚ) : ℚ :=
  (xs.map (fun x => (x - mean xs) ^ 2)).sum / ((xs.length : ℚ) - 1)

/-! ## Metrics (src/models/algo_trading.py, `compute_metrics`)

The source computes
`ann_return = ((algo_returns.mean() + 1) ** 252 - 1) * 100`,
`std_dev = algo_returns.std() * np.sqrt(252) * 100`,
`sharpe = (ann_return / 100 - rf) / (std_dev / 100)`.
`ann_return` is exact rational arithmetic; the standard deviation takes a
square root, so it lives in `ℝ`.  The `.dropna()` on the input is the
identity here because a `List ℚ` has no missing values. -/

/-- Source `ann_return`: note the `* 100` (the value is in percent). -/
def ann_return (rs : List ℚ) : ℚ := ((mean rs + 1) ^ 252 - 1) * 100

/-- Source `std_dev`: sample standard deviation annualized by `√252`,
again `* 100` (percent). -/
noncomputable def std_dev (rs : List ℚ) : ℝ :=
  Real.sqrt (sampleVar rs) * Real.sqrt 252 * 100

/-- Source `sharpe`: the two percent scalings are divided back out. -/
noncomputable def sharpe (rs : List ℚ) (rf : ℚ) : ℝ :=
  ((ann_return rs : ℝ) / 100 - (rf : ℝ)) / (std_dev rs / 100)

/-- Source `compute_metrics`: the triple returned to every strategy. -/
noncomputable def compute_metrics (rs : List ℚ) (rf : ℚ) : ℚ × ℝ × ℝ :=
  (ann_return rs, std_dev rs, sharpe rs rf)

/-- The spec's annualized return, `(mean(daily_algo_return)+1)^252 − 1`
(no percent scaling). -/
def annReturnSpec (rs : List ℚ) : ℚ := (mean rs + 1) ^ 252 - 1

/-- The spec's annualized volatility, `std(daily_algo_return) × sqrt(252)`
(no percent scaling). -/
noncomputable def annVolSpec (rs : List ℚ) : ℝ :=
  Real.sqrt (sampleVar rs) * Real.sqrt 252

/-- The spec's Sharpe ratio,
`(annualized_return − risk_free_rate) / annualized_volatility`. -/
noncomputable def sharpeSpec (rs : List ℚ) (rf : ℚ) : ℝ :=
  ((annReturnSpec rs : ℝ) - (rf : ℝ)) / annVolSpec rs

/-! ## Indicators (src/models/algo_trading.py) -/

/-- Source `SMA`: `series.rolling(window).mean()` read at index `i` of the
price list; meaningful once `w - 1 ≤ i < p.length` (earlier rows are NaN in
pandas and get dropped). -/
def SMA (p : List ℚ) (w : ℕ) (i : ℕ) : ℚ :=
  ((p.drop (i + 1 - w)).take w).sum / (w : ℚ)

/-- Source `series.diff()` at index `i` (NaN at `i = 0` in pandas; such rows never
survive the dropna of any consumer here). -/
def delta (p : List ℚ) (i : ℕ) : ℚ := p.getD i 0 - p.getD (i - 1) 0

/-- Source `delta.clip(lower=0)` at index `i`. -/
def gain (p : List ℚ) (i : ℕ) : ℚ := max (delta p i) 0

/-- Source `-delta.clip(upper=0)` at index `i`. -/
def loss (p : List ℚ) (i : ℕ) : ℚ := max (-delta p i) 0

/-- Source `gain.rolling(period).mean()` at index `i`. -/
def avg_gain (p : List ℚ) (period i : ℕ) : ℚ :=
  ((List.range period).map (fun j => gain p (i - j))).sum / (period : ℚ)

/-- Source `loss.rolling(period).mean()` at index `i`. -/
def avg_loss (p : List ℚ) (period i : ℕ) : ℚ :=
  ((List.range period).map (fun j => loss p (i - j))).sum / (period : ℚ)

/-- Source `RSI`: `100 - 100 / (1 + avg_gain / avg_loss)`.  In `ℚ` division
by zero yields `0`; pandas instead yields an infinite or NaN row there
(an all-gain or flat window), so statements evaluated on concrete inputs
below only use windows containing both a gain and a loss. -/
def RSI (p : List ℚ) (period i : ℕ) : ℚ :=
  100 - 100 / (1 + avg_gain p period i / avg_loss p period i)

/-! ## Stateful position loops

Each strategy builds a dataframe, drops the NaN warm-up rows and then fills
`Position` row by row with `Position[0] = 0` and a step rule reading the
previous row.  `posLoop step t` is the position at offset `t` of the valid
window; the step function receives the offset (≥ 1) of the row it fills. -/

/-- The `df["Position"] = 0` initialisation followed by the
`for i in range(1, len(df))` fill. -/
def posLoop (step : ℕ → ℤ → ℤ) : ℕ → ℤ
  | 0 => 0
  | t + 1 => step (t + 1) (posLoop step t)

/-! ## SMA strategies (stateless position rules) -/

/-- First surviving row of the SMA dataframes: the slower SMA needs
`max fast slow` prices and the `Returns` column starts at index 1. -/
def smaStart (fast slow : ℕ) : ℕ := max (max fast slow - 1) 1

/-- Source `sma_long_only`: `Position = (SMA_Fast >= SMA_Slow).astype(int)`. -/
def sma_long_only_pos (p : List ℚ) (fast slow i : ℕ) : ℤ :=
  if SMA p slow i ≤ SMA p fast i then 1 else 0

/-- Source `sma_short_only`: `Position = np.where(SMA_Fast < SMA_Slow, -1, 0)`. -/
def sma_short_only_pos (p : List ℚ) (fast slow i : ℕ) : ℤ :=
  if SMA p fast i < SMA p slow i then -1 else 0

/-- Source `sma_long_short`: `Position = np.where(SMA_Fast >= SMA_Slow, 1, -1)`. -/
def sma_long_short_pos (p : List ℚ) (fast slow i : ℕ) : ℤ :=
  if SMA p slow i ≤ SMA p fast i then 1 else -1

/-- The `Position` column of `sma_long_only` over the valid window. -/
def sma_long_only_positions (p : List ℚ) (fast slow : ℕ) : List ℤ :=
  (List.range (p.length - smaStart fast slow)).map
    (fun t => sma_long_only_pos p fast slow (smaStart fast slow + t))

/-- The `Position` column of `sma_short_only` over the valid window. -/
def sma_short_only_positions (p : List ℚ) (fast slow : ℕ) : List ℤ :=
  (List.range (p.length - smaStart fast slow)).map
    (fun t => sma_short_only_pos p fast slow (smaStart fast slow + t))

/-- The `Position` column of `sma_long_short` over the valid window. -/
def sma_long_short_positions (p : List ℚ) (fast slow : ℕ) : List ℤ :=
  (List.range (p.length - smaStart fast slow)).map
    (fun t => sma_long_short_pos p fast slow (smaStart fast slow + t))

/-! ## RSI strategies (carry-forward position rules)

The RSI column is defined from index `period` on (the diff at index 0 is
missing), so the valid window starts at absolute index `period`; offset `t`
of the window is absolute index `period + t`. -/

/-- Source `rsi_long_only` row rule: enter on `RSI <= oversold`, exit on
`RSI >= overbought`, else carry the previous position. -/
def rsi_long_only_step (p : List ℚ) (period : ℕ) (oversold overbought : ℚ)
    (i : ℕ) (prev : ℤ) : ℤ :=
  if RSI p period i ≤ oversold then 1
  else if overbought ≤ RSI p period i then 0
  else prev

/-- Source `rsi_short_only` row rule: the overbought test comes first in the source. -/
def rsi_short_only_step (p : List ℚ) (period : ℕ) (oversold overbought : ℚ)
    (i : ℕ) (prev : ℤ) : ℤ :=
  if overbought ≤ RSI p period i then -1
  else if RSI p period i ≤ oversold then 0
  else prev

/-- Source `rsi_long_short` row rule. -/
def rsi_long_short_step (p : List ℚ) (period : ℕ) (oversold overbought : ℚ)
    (i : ℕ) (prev : ℤ) : ℤ :=
  if RSI p period i ≤ oversold then 1
  else if overbought ≤ RSI p period i then -1
  else prev

/-- Position of `rsi_long_only` at offset `t` of the valid window. -/
def rsi_long_only_pos (p : List ℚ) (period : ℕ) (oversold overbought : ℚ) : ℕ → ℤ :=
  posLoop (fun t prev => rsi_long_only_step p period oversold overbought (period + t) prev)

/-- Position of `rsi_short_only` at offset `t` of the valid window. -/
def rsi_short_only_pos (p : List ℚ) (period : ℕ) (oversold overbought : ℚ) : ℕ → ℤ :=
  posLoop (fun t prev => rsi_short_only_step p period oversold overbought (period + t) prev)

/-- Position of `rsi_long_short` at offset `t` of the valid window. -/
def rsi_long_short_pos (p : List ℚ) (period : ℕ) (oversold overbought : ℚ) : ℕ → ℤ :=
  posLoop (fun t prev => rsi_long_short_step p period oversold overbought (period + t) prev)

/-- The `Position` column of `rsi_long_only`. -/
def rsi_long_only_positions (p : List ℚ) (period : ℕ) (oversold overbought : ℚ) : List ℤ :=
  (List.range (p.length - period)).map (rsi_long_only_pos p period oversold overbought)

/-- The `Position` column of `rsi_short_only`. -/
def rsi_short_only_positions (p : List ℚ) (period : ℕ) (oversold overbought : ℚ) : List ℤ :=
  (List.range (p.length - period)).map (rsi_short_only_pos p period oversold overbought)

/-- The `Position` column of `rsi_long_short`. -/
def rsi_long_short_positions (p : List ℚ) (period : ℕ) (oversold overbought : ℚ) : List ℤ :=
  (List.range (p.length - period)).map (rsi_long_short_pos p period oversold overbought)

/-! ## Custom triple SMA (src/models/algo_trading.py, `custom_triple_sma`)

Windows 7/14/21 are fixed in the source; the valid window starts at absolute
index 20 (SMA21 needs 21 prices).  The crossover conditions compare row `i`
with row `i - 1` of the dropped dataframe, which are absolute indices
`20 + t` and `20 + t - 1`. -/

/-- Source `sma7_cross_up_14`. -/
@[reducible] def sma7_cross_up_14 (p : List ℚ) (i : ℕ) : Prop :=
  SMA p 14 i < SMA p 7 i ∧ SMA p 7 (i - 1) ≤ SMA p 14 (i - 1)

/-- Source `sma7_cross_up_21`. -/
@[reducible] def sma7_cross_up_21 (p : List ℚ) (i : ℕ) : Prop :=
  SMA p 21 i < SMA p 7 i ∧ SMA p 7 (i - 1) ≤ SMA p 21 (i - 1)

/-- Source `sma14_cross_up_21`. -/
@[reducible] def sma14_cross_up_21 (p : List ℚ) (i : ℕ) : Prop :=
  SMA p 21 i < SMA p 14 i ∧ SMA p 14 (i - 1) ≤ SMA p 21 (i - 1)

/-- Source `sma14_cross_down_21`. -/
@[reducible] def sma14_cross_down_21 (p : List ℚ) (i : ℕ) : Prop :=
  SMA p 14 i < SMA p 21 i ∧ SMA p 21 (i - 1) ≤ SMA p 14 (i - 1)

/-- Source `both_below_21`. -/
@[reducible] def both_below_21 (p : List ℚ) (i : ℕ) : Prop :=
  SMA p 7 i < SMA p 21 i ∧ SMA p 14 i < SMA p 21 i

/-- The source's entry branch guard: `both_below_21 and sma7_cross_up_14`. -/
@[reducible] def tripleEntryCond (p : List ℚ) (i : ℕ) : Prop :=
  both_below_21 p i ∧ sma7_cross_up_14 p i

/-- The source's add-on branch guard (without the `prev_pos == 1` part):
`sma7_cross_up_21 or sma14_cross_up_21`. -/
@[reducible] def tripleAddCond (p : List ℚ) (i : ℕ) : Prop :=
  sma7_cross_up_21 p i ∨ sma14_cross_up_21 p i

/-- The spec's `fast>mid>slow` alignment of the three SMAs at row `i`. -/
@[reducible] def tripleAlignCond (p : List ℚ) (i : ℕ) : Prop :=
  SMA p 14 i < SMA p 7 i ∧ SMA p 21 i < SMA p 14 i

/-- The `if/elif/elif/else` cascade that fills `Position` row `i`. -/
def tripleStep (p : List ℚ) (i : ℕ) (prev : ℤ) : ℤ :=
  if tripleEntryCond p i then 1
  else if prev = 1 ∧ tripleAddCond p i then 1
  else if sma14_cross_down_21 p i then 0
  else prev

/-- Position of `custom_triple_sma` at offset `t` of the valid window. -/
def triple_sma_pos (p : List ℚ) : ℕ → ℤ :=
  posLoop (fun t prev => tripleStep p (20 + t) prev)

/-- The `Position` column of `custom_triple_sma`. -/
def triple_sma_positions (p : List ℚ) : List ℤ :=
  (List.range (p.length - 20)).map (triple_sma_pos p)

/-- The `Signal == "Entry"` rows: the entry branch is taken at offset
`t ≥ 1` exactly when its guard holds (row 0 keeps the initial `"Hold"`). -/
def triple_sma_entry_count (p : List ℚ) : ℕ :=
  ((List.range (p.length - 20)).filter
    (fun t => decide (1 ≤ t ∧ tripleEntryCond p (20 + t)))).length

/-! ## Trade counts -/

/-- Source `df["Position"].diff().abs().sum()`: the sum of absolute differences of
consecutive positions (the first, NaN, diff is skipped by `sum`). -/
def absDiffSum : List ℤ → ℕ
  | [] => 0
  | [_] => 0
  | a :: b :: rest => (b - a).natAbs + absDiffSum (b :: rest)

/-- The spec's trade count: sum over consecutive index pairs of the absolute
position change. -/
def specTradeCount (ps : List ℤ) : ℚ :=
  ((List.range (ps.length - 1)).map
    (fun i => ((ps.getD (i + 1) 0 - ps.getD i 0).natAbs : ℚ))).sum

/-- Reported `Trades` of `sma_long_only`. -/
def sma_long_only_trades (p : List ℚ) (fast slow : ℕ) : ℚ :=
  (absDiffSum (sma_long_only_positions p fast slow) : ℚ)

/-- Reported `Trades` of `sma_short_only`. -/
def sma_short_only_trades (p : List ℚ) (fast slow : ℕ) : ℚ :=
  (absDiffSum (sma_short_only_positions p fast slow) : ℚ)

/-- Reported `Trades` of `sma_long_short`: the sum is halved. -/
def sma_long_short_trades (p : List ℚ) (fast slow : ℕ) : ℚ :=
  (absDiffSum (sma_long_short_positions p fast slow) : ℚ) / 2

/-- Reported `Trades` of `rsi_long_only`. -/
def rsi_long_only_trades (p : List ℚ) (period : ℕ) (oversold overbought : ℚ) : ℚ :=
  (absDiffSum (rsi_long_only_positions p period oversold overbought) : ℚ)

/-- Reported `Trades` of `rsi_short_only`. -/
def rsi_short_only_trades (p : List ℚ) (period : ℕ) (oversold overbought : ℚ) : ℚ :=
  (absDiffSum (rsi_short_only_positions p period oversold overbought) : ℚ)

/-- Reported `Trades` of `rsi_long_short`: the sum is halved. -/
def rsi_long_short_trades (p : List ℚ) (period : ℕ) (oversold overbought : ℚ) : ℚ :=
  (absDiffSum (rsi_long_short_positions p period oversold overbought) : ℚ) / 2

/-- Reported `Trades` of `custom_triple_sma`: `(df["Signal"] == "Entry").sum()`,
not a position-change count. -/
def triple_sma_trades (p : List ℚ) : ℚ := (triple_sma_entry_count p : ℚ)

/-! ## Portfolio optimisation (src/models/portfolio.py)

The cvxpy solver and the covariance algebra are external; each grid point's
`problem.solve()` is an oracle that either fails (`w.value is None`) or
yields weights together with the two numbers the scan reads from them:
`ret = w.value @ mean_returns` and `vol = sqrt(w.value @ cov @ w.value)`.
Both functions return `Except.ok`: the source has no raise path, a failed
solve just leaves `None` in the result. -/

/-- What one successful grid-point solve gives the max-Sharpe scan. -/
structure QPoint where
  w : List ℚ
  ret : ℚ
  vol : ℚ

/-- One iteration of the max-Sharpe loop: a failed point leaves the best
pair unchanged; a feasible point with positive volatility competes on
`sharpe = (ret - rf) / vol` (with `-inf` for `vol ≤ 0`, which never wins). -/
def scanStep (rf : ℚ) (acc : Option (ℚ × List ℚ)) (res : Option QPoint) :
    Option (ℚ × List ℚ) :=
  match res with
  | none => acc
  | some r =>
    if 0 < r.vol then
      match acc with
      | none => some ((r.ret - rf) / r.vol, r.w)
      | some best =>
        if best.1 < (r.ret - rf) / r.vol then some ((r.ret - rf) / r.vol, r.w)
        else some best
    else acc

/-- The grid scan of `max_sharpe_portfolio`, starting from
`best_sharpe = -inf, best_weights = None`. -/
def maxSharpeScan (rf : ℚ) (results : List (Option QPoint)) : Option (ℚ × List ℚ) :=
  results.foldl (scanStep rf) none

/-- Source `max_sharpe_portfolio`: returns `pd.Series(best_weights, ...)`
unconditionally, `None` weights included; no exception is ever raised. -/
def max_sharpe_portfolio (rf : ℚ) (results : List (Option QPoint)) :
    Except String (Option (List ℚ)) :=
  Except.ok ((maxSharpeScan rf results).map Prod.snd)

/-- Source `min_variance_portfolio`: returns `pd.Series(w.value, ...)` with
whatever the single solve produced (`None` on failure); no check, no raise. -/
def min_variance_portfolio (solverResult : Option (List ℚ)) :
    Except String (Option (List ℚ)) :=
  Except.ok solverResult

/-- Whether a result surfaces a failure to the caller. -/
def surfacesError : Except String (Option (List ℚ)) → Bool
  | Except.error _ => true
  | Except.ok _ => false

/-! ## Distributed lag model (src/pages/5_Distributed_Lag_Model.py)

The OLS fits are external; the F statistic is pure arithmetic on the two
residual sums of squares.  In the source `k = len(indep_banks) * max_lags`;
`b` below is `len(indep_banks)`. -/

/-- Source `k = len(indep_banks) * max_lags`. -/
def dlmK (b maxLags : ℕ) : ℕ := b * maxLags

/-- Source
`F_stat = ((RSS_r - RSS_u) / (k - len(indep_banks))) / (RSS_u / (n - k - 1))`. -/
def F_stat (RSSr RSSu n : ℚ) (b maxLags : ℕ) : ℚ :=
  ((RSSr - RSSu) / ((dlmK b maxLags : ℚ) - (b : ℚ))) /
    (RSSu / (n - (dlmK b maxLags : ℚ) - 1))

/-- Source `p_value = 1 - f.cdf(F_stat, k - len(indep_banks), n - k - 1)`;
the scipy F-distribution cdf is an uninterpreted function argument. -/
def p_value (cdf : ℚ → ℚ → ℚ → ℚ) (RSSr RSSu n : ℚ) (b maxLags : ℕ) : ℚ :=
  1 - cdf (F_stat RSSr RSSu n b maxLags)
    ((dlmK b maxLags : ℚ) - (b : ℚ)) (n - (dlmK b maxLags : ℚ) - 1)

/-- The spec's F statistic with explicit degrees of freedom:
`((RSS_restricted − RSS_unrestricted)/k_extra) / (RSS_unrestricted/(n − k_total − 1))`. -/
def F_specForm (RSSr RSSu n : ℚ) (kExtra kTotal : ℕ) : ℚ :=
  ((RSSr - RSSu) / (kExtra : ℚ)) / (RSSu / (n - (kTotal : ℚ) - 1))

/-- The spec's p-value: upper tail of the F distribution with
`(k_extra, n − k_total − 1)` degrees of freedom. -/
def p_valueSpec (cdf : ℚ → ℚ → ℚ → ℚ) (RSSr RSSu n : ℚ) (kExtra kTotal : ℕ) : ℚ :=
  1 - cdf (F_specForm RSSr RSSu n kExtra kTotal) (kExtra : ℚ) (n - (kTotal : ℚ) - 1)

/-- Source `weighted_lag`:
`np.sum(lags * betas) / np.sum(betas) if np.sum(betas) != 0 else np.nan`;
the NaN sentinel is `none`. -/
def weighted_lag (lags betas : List ℚ) : Option ℚ :=
  if betas.sum ≠ 0 then some ((List.zipWith (fun a b => a * b) lags betas).sum / betas.sum)
  else none

/-! ## A numpy-float value model for the zero-volatility Sharpe

numpy float64 division by zero raises no exception: it yields `inf`,
`-inf` or `nan`.  `NPFloat` is the exact-rational model of that value
space, enough to follow `compute_metrics` through a zero denominator. -/

inductive NPFloat
  | num : ℚ → NPFloat
  | posInf : NPFloat
  | negInf : NPFloat
  | nan : NPFloat

/-- numpy subtraction on the value model. -/
def npSub : NPFloat → NPFloat → NPFloat
  | NPFloat.num a, NPFloat.num b => NPFloat.num (a - b)
  | NPFloat.posInf, NPFloat.num _ => NPFloat.posInf
  | NPFloat.negInf, NPFloat.num _ => NPFloat.negInf
  | NPFloat.num _, NPFloat.posInf => NPFloat.negInf
  | NPFloat.num _, NPFloat.negInf => NPFloat.posInf
  | NPFloat.posInf, NPFloat.negInf => NPFloat.posInf
  | NPFloat.negInf, NPFloat.posInf => NPFloat.negInf
  | _, _ => NPFloat.nan

/-- numpy division on the value model: a finite numerator over zero gives a
signed infinity, `0/0` gives `nan`, nothing raises. -/
def npDiv : NPFloat → NPFloat → NPFloat
  | NPFloat.num a, NPFloat.num b =>
    if b = 0 then
      if a = 0 then NPFloat.nan
      else if 0 < a then NPFloat.posInf else NPFloat.negInf
    else NPFloat.num (a / b)
  | NPFloat.posInf, NPFloat.num b => if 0 ≤ b then NPFloat.posInf else NPFloat.negInf
  | NPFloat.negInf, NPFloat.num b => if 0 ≤ b then NPFloat.negInf else NPFloat.posInf
  | NPFloat.num _, NPFloat.posInf => NPFloat.num 0
  | NPFloat.num _, NPFloat.negInf => NPFloat.num 0
  | _, _ => NPFloat.nan

/-- Finite (ordinary) values of the model. -/
def isFiniteNP : NPFloat → Bool
  | NPFloat.num _ => true
  | _ => false

/-- The `sharpe = (ann_return / 100 - rf) / (std_dev / 100)` line of
`compute_metrics`, evaluated in the numpy value model. -/
def sharpeNP (ann rf sd : NPFloat) : NPFloat :=
  npDiv (npSub (npDiv ann (NPFloat.num 100)) rf) (npDiv sd (NPFloat.num 100))

/-- The `std_dev` value fed to that line, with the square root abstracted:
`sq` stands for the float square root (only `sq 0 = 0` is ever assumed) and
`c` for the float value of `sqrt(252)`. -/
def stdDevNP (sq : ℚ → ℚ) (c : ℚ) (rs : List ℚ) : NPFloat :=
  NPFloat.num (sq (sampleVar rs) * c * 100)

/-! ## Johansen rank (src/pages/3_VAR_VECM.py)

`coint_rank = sum(trace_stats > crit_95)`: the elementwise comparison of the
two arrays summed as a count. -/

/-- Source `coint_rank`. -/
def coint_rank (trace crit : List ℚ) : ℕ :=
  ((trace.zip crit).filter (fun tc => decide (tc.2 < tc.1))).length

/-! ## Returns (src/utils/data_loader.py, `get_returns`)

`price_data.pct_change()` is `p[j+1]/p[j] - 1` at row `j+1` with a missing
first row, and `.dropna()` removes that row. -/

/-- Source `get_returns` for simple (non-log) returns. -/
def get_returns (p : List ℚ) : List ℚ :=
  (List.range (p.length - 1)).map (fun j => p.getD (j + 1) 0 / p.getD j 0 - 1)

/-! ## Concrete inputs used by counterexamples and witnesses -/

/-- Strictly increasing prices `1, 2, ..., 25`: the three SMAs are aligned
`fast > mid > slow` on every valid bar, yet no entry ever fires. -/
def pInc : List ℚ :=
  [1, 2, 3, 4, 5, 6, 7, 8, 9, 10, 11, 12, 13, 14, 15, 16, 17, 18, 19, 20,
   21, 22, 23, 24, 25]

/-- A decline (100 to 60), a rally (63 to 96) and a second decline: the
triple-SMA strategy produces exactly one `Entry` (offset 6) and one `Exit`
(offset 22), so the position column changes twice while the entry count
is 1. -/
def pEx : List ℚ :=
  [100, 98, 96, 94, 92, 90, 88, 86, 84, 82, 80, 78, 76, 74, 72, 70, 68, 66,
   64, 62, 60, 63, 66, 69, 72, 75, 78, 81, 84, 87, 90, 93, 96, 90, 84, 78,
   72, 66, 60, 54, 48, 42, 36]

/-- Six prices whose RSI(2) path is 50, 0, 50, 50 on the valid window: one
entry at offset 1 and no later change. -/
def pRsi : List ℚ := [10, 11, 10, 9, 10, 9]

/-! ## Helper lemmas -/

/-- Invariants of the row-by-row position loops: a property of the initial
position preserved by every step holds at every offset. -/
theorem posLoop_induction (step : ℕ → ℤ → ℤ) (P : ℤ → Prop) (h0 : P 0)
    (hstep : ∀ t prev, P prev → P (step (t + 1) prev)) : ∀ t, P (posLoop step t)
  | 0 => h0
  | t + 1 => hstep t _ (posLoop_induction step P h0 hstep t)

/-- One cons-cons unfolding of the spec's trade count. -/
theorem specTradeCount_cons_cons (a b : ℤ) (rest : List ℤ) :
    specTradeCount (a :: b :: rest) =
      ((b - a).natAbs : ℚ) + specTradeCount (b :: rest) := by
  simp only [specTradeCount, List.length_cons, Nat.add_sub_cancel]
  rw [List.range_succ_eq_map]
  simp [List.map_map, Function.comp_def, List.getD_cons_succ, List.getD_cons_zero]

/-- The pandas `diff().abs().sum()` equals the spec's sum of absolute
differences between consecutive positions. -/
theorem absDiffSum_eq_spec : ∀ ps : List ℤ, (absDiffSum ps : ℚ) = specTradeCount ps
  | [] => by simp [absDiffSum, specTradeCount]
  | [_] => by simp [absDiffSum, specTradeCount]
  | a :: b :: rest => by
    rw [specTradeCount_cons_cons, ← absDiffSum_eq_spec (b :: rest)]
    simp [absDiffSum]

/-- The RSI long-only loop only ever assigns 0 or 1. -/
theorem rsi_long_only_pos_mem (p : List ℚ) (period : ℕ) (oversold overbought : ℚ)
    (t : ℕ) : rsi_long_only_pos p period oversold overbought t = 0 ∨
      rsi_long_only_pos p period oversold overbought t = 1 := by
  refine posLoop_induction _ (fun z => z = 0 ∨ z = 1) (Or.inl rfl) ?_ t
  intro s prev hprev
  unfold rsi_long_only_step
  split_ifs
  · exact Or.inr rfl
  · exact Or.inl rfl
  · exact hprev

/-- The RSI short-only loop only ever assigns -1 or 0. -/
theorem rsi_short_only_pos_mem (p : List ℚ) (period : ℕ) (oversold overbought : ℚ)
    (t : ℕ) : rsi_short_only_pos p period oversold overbought t = -1 ∨
      rsi_short_only_pos p period oversold overbought t = 0 := by
  refine posLoop_induction _ (fun z => z = -1 ∨ z = 0) (Or.inr rfl) ?_ t
  intro s prev hprev
  unfold rsi_short_only_step
  split_ifs
  · exact Or.inl rfl
  · exact Or.inr rfl
  · exact hprev

/-- The RSI long-short loop only ever assigns -1, 0 or 1. -/
theorem rsi_long_short_pos_mem (p : List ℚ) (period : ℕ) (oversold overbought : ℚ)
    (t : ℕ) : rsi_long_short_pos p period oversold overbought t = -1 ∨
      rsi_long_short_pos p period oversold overbought t = 0 ∨
      rsi_long_short_pos p period oversold overbought t = 1 := by
  refine posLoop_induction _ (fun z => z = -1 ∨ z = 0 ∨ z = 1) (Or.inr (Or.inl rfl)) ?_ t
  intro s prev hprev
  unfold rsi_long_short_step
  split_ifs
  · exact Or.inr (Or.inr rfl)
  · exact Or.inl rfl
  · exact hprev

/-- The triple-SMA loop only ever assigns 0 or 1. -/
theorem triple_sma_pos_mem (p : List ℚ) (t : ℕ) :
    triple_sma_pos p t = 0 ∨ triple_sma_pos p t = 1 := by
  refine posLoop_induction _ (fun z => z = 0 ∨ z = 1) (Or.inl rfl) ?_ t
  intro s prev hprev
  unfold tripleStep
  split_ifs
  · exact Or.inr rfl
  · exact Or.inr rfl
  · exact Or.inl rfl
  · exact hprev

/-- The source's elementwise Johansen count agrees with the index-wise
count of rejected hypotheses. -/
theorem coint_rank_eq : ∀ ts cs : List ℚ, ts.length = cs.length →
    coint_rank ts cs =
      ((List.range ts.length).filter (fun i => decide (cs.getD i 0 < ts.getD i 0))).length
  | [], cs, h => by
    have hcs : cs = [] := List.length_eq_zero.mp h.symm
    subst hcs
    simp [coint_rank]
  | _ :: _, [], h => by simp at h
  | t :: ts, c :: cs, h => by
    have ih := coint_rank_eq ts cs (Nat.succ_injective h)
    simp only [coint_rank] at ih
    simp only [coint_rank, List.zip_cons_cons, List.length_cons, List.filter_cons,
      List.range_succ_eq_map, List.filter_map, List.getD_cons_zero]
    by_cases hct : c < t
    · simp [hct, Function.comp_def, List.getD_cons_succ, ih]
    · simp [hct, Function.comp_def, List.getD_cons_succ, ih]

/-! ## Claim theorems -/

/-- Claim C8: the inferred cointegrating rank from the Johansen test equals
the count of hypothesized ranks whose trace statistic strictly exceeds the
95% critical value; for trace statistics [30, 10] against 95% critical
values [20, 15] the inferred rank is 1. -/
theorem C8_coint_rank_counts_rejections (trace crit : List ℚ)
    (h : trace.length = crit.length) :
    coint_rank trace crit =
      ((List.range trace.length).filter
        (fun i => decide (crit.getD i 0 < trace.getD i 0))).length ∧
    coint_rank [30, 10] [20, 15] = 1 :=
  ⟨coint_rank_eq trace crit h, by with_unfolding_all decide⟩

/-- Witness for C8 at the claim's own concrete input. -/
theorem C8_coint_rank_counts_rejections_witness :
    coint_rank [30, 10] [20, 15] = 1 :=
  (C8_coint_rank_counts_rejections [30, 10] [20, 15] rfl).2

/-- Claim C9: on a strictly increasing, strictly positive price series
(the spec's PriceSeries values are strictly positive), `get_returns`
yields exactly `n - 1` returns, all strictly positive, each the simple
percentage change between consecutive prices. -/
theorem C9_get_returns_increasing (p : List ℚ)
    (hpos : ∀ j, j < p.length → 0 < p.getD j 0)
    (hmono : ∀ j, j < p.length - 1 → p.getD j 0 < p.getD (j + 1) 0) :
    (get_returns p).length = p.length - 1 ∧
    (∀ r ∈ get_returns p, 0 < r) ∧
    (∀ j, j + 1 < p.length →
      (get_returns p).getD j 0 = (p.getD (j + 1) 0 - p.getD j 0) / p.getD j 0) := by
  refine ⟨by simp [get_returns], ?_, ?_⟩
  · intro r hr
    simp only [get_returns, List.mem_map, List.mem_range] at hr
    obtain ⟨j, hj, rfl⟩ := hr
    have hb := hpos j (by omega)
    have hlt := hmono j (by omega)
    have h1 : 1 < p.getD (j + 1) 0 / p.getD j 0 := (one_lt_div hb).mpr hlt
    linarith
  · intro j hj
    have hlen : j < (List.range (p.length - 1)).length := by
      simp only [List.length_range]
      omega
    have hb := hpos j (by omega)
    have hb' : p.getD j 0 ≠ 0 := ne_of_gt hb
    rw [get_returns, List.getD_eq_getElem _ _ (by simpa using hlen),
      List.getElem_map, List.getElem_range, eq_div_iff hb', sub_mul,
      div_mul_cancel₀ _ hb', one_mul]

/-- Witness for C9 on the prices 1, 2, 4. -/
theorem C9_get_returns_increasing_witness :
    (get_returns [1, 2, 4]).getD 0 0 =
      (([1, 2, 4] : List ℚ).getD 1 0 - ([1, 2, 4] : List ℚ).getD 0 0) /
        ([1, 2, 4] : List ℚ).getD 0 0 :=
  (C9_get_returns_increasing [1, 2, 4] (by with_unfolding_all decide)
    (by with_unfolding_all decide)).2.2 0 (by decide)

/-- Claim C10: the RSI long-short position sequence always starts flat at 0,
and there is a price input (six prices, period 2) with exactly one entry and
no later position change whose reported trade count is the non-integer 0.5. -/
theorem C10_rsi_long_short_half_trade (p : List ℚ) (period : ℕ)
    (oversold overbought : ℚ) (h : period < p.length) :
    (rsi_long_short_positions p period oversold overbought).getD 0 1 = 0 ∧
    rsi_long_short_trades pRsi 2 30 70 = 1 / 2 ∧
    ¬ ∃ z : ℤ, rsi_long_short_trades pRsi 2 30 70 = (z : ℚ) := by
  refine ⟨?_, by with_unfolding_all decide, ?_⟩
  · obtain ⟨m, hm⟩ : ∃ m, p.length - period = m + 1 :=
      ⟨p.length - period - 1, by omega⟩
    simp only [rsi_long_short_positions, hm, List.range_succ_eq_map, List.map_cons,
      List.getD_cons_zero]
    rfl
  · rintro ⟨z, hz⟩
    have h2 : rsi_long_short_trades pRsi 2 30 70 = 1 / 2 := by
      with_unfolding_all decide
    rw [h2] at hz
    have hq : (1 : ℚ) = 2 * (z : ℚ) := by
      field_simp at hz
      linarith
    have hi : (1 : ℤ) = 2 * z := by exact_mod_cast hq
    omega

/-- Witness for C10: the positions of the concrete input start at 0. -/
theorem C10_rsi_long_short_half_trade_witness :
    (rsi_long_short_positions pRsi 2 30 70).getD 0 1 = 0 :=
  (C10_rsi_long_short_half_trade pRsi 2 30 70 (by decide)).1

/-- Claim C5: every strategy's position is in {-1, 0, 1} at every bar;
long-only variants (SMA long-only, RSI long-only, triple-SMA) never emit -1,
short-only variants never emit +1. -/
theorem C5_positions_in_range (p : List ℚ) (fast slow period : ℕ)
    (oversold overbought : ℚ) (i t : ℕ) :
    (sma_long_only_pos p fast slow i = 0 ∨ sma_long_only_pos p fast slow i = 1) ∧
    (sma_short_only_pos p fast slow i = -1 ∨ sma_short_only_pos p fast slow i = 0) ∧
    (sma_long_short_pos p fast slow i = -1 ∨ sma_long_short_pos p fast slow i = 1) ∧
    (rsi_long_only_pos p period oversold overbought t = 0 ∨
      rsi_long_only_pos p period oversold overbought t = 1) ∧
    (rsi_short_only_pos p period oversold overbought t = -1 ∨
      rsi_short_only_pos p period oversold overbought t = 0) ∧
    (rsi_long_short_pos p period oversold overbought t = -1 ∨
      rsi_long_short_pos p period oversold overbought t = 0 ∨
      rsi_long_short_pos p period oversold overbought t = 1) ∧
    (triple_sma_pos p t = 0 ∨ triple_sma_pos p t = 1) := by
  refine ⟨?_, ?_, ?_, rsi_long_only_pos_mem p period oversold overbought t,
    rsi_short_only_pos_mem p period oversold overbought t,
    rsi_long_short_pos_mem p period oversold overbought t, triple_sma_pos_mem p t⟩ <;>
  · simp only [sma_long_only_pos, sma_short_only_pos, sma_long_short_pos]
    split_ifs <;> simp

/-- Claim C2 counterexample: on strictly increasing prices the fast>mid>slow
alignment holds at bar 1 of the valid window and the machine is flat at
bar 0, yet the position at bar 1 is still 0 — the alignment condition does
not trigger an entry (the source's entry guard requires both SMAs below
SMA21, the opposite of the alignment). -/
theorem C2_alignment_does_not_enter :
    tripleAlignCond pInc 21 ∧ triple_sma_pos pInc 0 = 0 ∧ triple_sma_pos pInc 1 = 0 := by
  with_unfolding_all decide

/-- Claim C2 amended: the triple-SMA machine has states {0, 1}; from flat it
enters (position 1) exactly when SMA7 crosses above SMA14 with both SMA7 and
SMA14 below SMA21; from long it exits to flat exactly when SMA14 crosses
below SMA21 while neither the entry guard nor an add-on cross above SMA21
fires (the earlier branches take precedence); otherwise every bar keeps the
previous bar's position. -/
theorem C2_triple_sma_state_machine (p : List ℚ) (t : ℕ) :
    (triple_sma_pos p t = 0 ∨ triple_sma_pos p t = 1) ∧
    (triple_sma_pos p t = 0 →
      (triple_sma_pos p (t + 1) = 1 ↔ tripleEntryCond p (20 + (t + 1)))) ∧
    (triple_sma_pos p t = 1 →
      (triple_sma_pos p (t + 1) = 0 ↔
        (sma14_cross_down_21 p (20 + (t + 1)) ∧ ¬ tripleEntryCond p (20 + (t + 1)) ∧
          ¬ tripleAddCond p (20 + (t + 1))))) ∧
    (¬ tripleEntryCond p (20 + (t + 1)) ∧ ¬ tripleAddCond p (20 + (t + 1)) ∧
      ¬ sma14_cross_down_21 p (20 + (t + 1)) →
      triple_sma_pos p (t + 1) = triple_sma_pos p t) := by
  have hstep : triple_sma_pos p (t + 1) =
      tripleStep p (20 + (t + 1)) (triple_sma_pos p t) := rfl
  refine ⟨triple_sma_pos_mem p t, ?_, ?_, ?_⟩
  · intro h0
    rw [hstep, h0]
    unfold tripleStep
    by_cases hE : tripleEntryCond p (20 + (t + 1))
    · rw [if_pos hE]
      exact iff_of_true rfl hE
    · rw [if_neg hE]
      refine iff_of_false ?_ hE
      have hno : ¬((0 : ℤ) = 1 ∧ tripleAddCond p (20 + (t + 1))) := by
        rintro ⟨h, -⟩
        exact absurd h (by decide)
      rw [if_neg hno]
      split_ifs <;> decide
  · intro h1
    rw [hstep, h1]
    unfold tripleStep
    by_cases hE : tripleEntryCond p (20 + (t + 1))
    · rw [if_pos hE]
      refine iff_of_false (by decide) ?_
      rintro ⟨-, hE', -⟩
      exact hE' hE
    · rw [if_neg hE]
      by_cases hA : tripleAddCond p (20 + (t + 1))
      · rw [if_pos ⟨rfl, hA⟩]
        refine iff_of_false (by decide) ?_
        rintro ⟨-, -, hA'⟩
        exact hA' hA
      · have hc : ¬((1 : ℤ) = 1 ∧ tripleAddCond p (20 + (t + 1))) := by
          rintro ⟨-, hA'⟩
          exact hA hA'
        rw [if_neg hc]
        by_cases hX : sma14_cross_down_21 p (20 + (t + 1))
        · rw [if_pos hX]
          exact iff_of_true rfl ⟨hX, hE, hA⟩
        · rw [if_neg hX]
          refine iff_of_false (by decide) ?_
          rintro ⟨hX', -, -⟩
          exact hX hX'
  · rintro ⟨hE, hA, hX⟩
    rw [hstep]
    unfold tripleStep
    have hno : ¬(triple_sma_pos p t = 1 ∧ tripleAddCond p (20 + (t + 1))) := by
      rintro ⟨-, hA'⟩
      exact hA hA'
    rw [if_neg hE, if_neg hno, if_neg hX]

/-- Claim C3 counterexample: on `pEx` the triple-SMA position column changes
twice (one entry, one exit: sum of absolute position differences 2) but the
reported trade count is 1, the number of Entry signals. -/
theorem C3_triple_trades_not_diff_sum :
    triple_sma_trades pEx ≠ specTradeCount (triple_sma_positions pEx) := by
  with_unfolding_all decide

/-- Claim C3 amended: the six SMA/RSI strategies report the sum of absolute
differences between consecutive positions over the valid window, halved for
the long-short variants; the custom triple-SMA strategy instead reports the
number of Entry signals, which differs from the position-change count
whenever an exit occurs. -/
theorem C3_trade_counts (p : List ℚ) (fast slow period : ℕ)
    (oversold overbought : ℚ) :
    sma_long_only_trades p fast slow =
      specTradeCount (sma_long_only_positions p fast slow) ∧
    sma_short_only_trades p fast slow =
      specTradeCount (sma_short_only_positions p fast slow) ∧
    sma_long_short_trades p fast slow =
      specTradeCount (sma_long_short_positions p fast slow) / 2 ∧
    rsi_long_only_trades p period oversold overbought =
      specTradeCount (rsi_long_only_positions p period oversold overbought) ∧
    rsi_short_only_trades p period oversold overbought =
      specTradeCount (rsi_short_only_positions p period oversold overbought) ∧
    rsi_long_short_trades p period oversold overbought =
      specTradeCount (rsi_long_short_positions p period oversold overbought) / 2 ∧
    triple_sma_trades p = (triple_sma_entry_count p : ℚ) := by
  refine ⟨absDiffSum_eq_spec _, absDiffSum_eq_spec _, ?_, absDiffSum_eq_spec _,
    absDiffSum_eq_spec _, ?_, rfl⟩
  · rw [sma_long_short_trades, absDiffSum_eq_spec]
  · rw [rsi_long_short_trades, absDiffSum_eq_spec]

/-- Claim C4 counterexample: on the single 1% return the reported
AnnualizedReturn is 100 times the spec's `(mean+1)^252 − 1`. -/
theorem C4_ann_return_is_percent :
    (compute_metrics [1 / 100] (13 / 200)).1 ≠ annReturnSpec [1 / 100] := by
  have h : (compute_metrics [1 / 100] (13 / 200)).1 = 100 * annReturnSpec [1 / 100] :=
    mul_comm (annReturnSpec [1 / 100]) 100
  have hm : mean [(1 : ℚ) / 100] = 1 / 100 := by
    simp [mean]
  have hpos : 0 < annReturnSpec [(1 : ℚ) / 100] := by
    unfold annReturnSpec
    rw [hm]
    exact sub_pos.mpr (one_lt_pow₀ (by norm_num) (by norm_num))
  rw [h]
  intro heq
  have heq' : (100 : ℚ) * annReturnSpec [(1 : ℚ) / 100] =
      annReturnSpec [(1 : ℚ) / 100] := heq
  linarith

/-- Claim C4 amended: every metric triple returned by `compute_metrics`
reports the spec's annualized return and annualized volatility multiplied by
100 (percent units); the Sharpe ratio, whose percent scalings cancel, equals
the spec's `(annualized_return − rf) / annualized_volatility` exactly. -/
theorem C4_compute_metrics_scaled (rs : List ℚ) (rf : ℚ) :
    (compute_metrics rs rf).1 = 100 * annReturnSpec rs ∧
    (compute_metrics rs rf).2.1 = 100 * annVolSpec rs ∧
    (compute_metrics rs rf).2.2 = sharpeSpec rs rf := by
  refine ⟨mul_comm (annReturnSpec rs) 100, mul_comm (annVolSpec rs) 100, ?_⟩
  show sharpe rs rf = sharpeSpec rs rf
  unfold sharpe sharpeSpec std_dev annVolSpec
  have h1 : ((ann_return rs : ℚ) : ℝ) = (annReturnSpec rs : ℝ) * 100 := by
    rw [show ann_return rs = annReturnSpec rs * 100 from rfl]
    push_cast
    ring
  rw [h1, mul_div_cancel_right₀ _ (by norm_num : (100 : ℝ) ≠ 0),
    mul_div_cancel_right₀ _ (by norm_num : (100 : ℝ) ≠ 0)]

/-- Claim C1 counterexample: with 2 independent banks, 4 lags, RSS
100 and 80 and n = 500, the source's F statistic (numerator degrees of
freedom `k - len(indep_banks)` = 6) differs from the claim's
(k_extra = b·k = 8), and the p-value call passes 6, not 8, as the first
degrees-of-freedom argument. -/
theorem C1_dof_mismatch :
    F_stat 100 80 500 2 4 ≠ F_specForm 100 80 500 (dlmK 2 4) (dlmK 2 4) ∧
    p_value (fun _ d _ => d) 100 80 500 2 4 ≠
      p_valueSpec (fun _ d _ => d) 100 80 500 (dlmK 2 4) (dlmK 2 4) := by
  with_unfolding_all decide

/-- Claim C1 amended: for `k ≥ 1` lags and `b` independent banks, the code's
F statistic equals the spec's formula with numerator degrees of freedom
`b·(k−1)` (not `b·k`), and its p-value is the upper F tail at
`(b·(k−1), n − b·k − 1)` degrees of freedom. -/
theorem C1_F_stat_dof (cdf : ℚ → ℚ → ℚ → ℚ) (RSSr RSSu n : ℚ) (b k : ℕ)
    (hk : 1 ≤ k) :
    F_stat RSSr RSSu n b k = F_specForm RSSr RSSu n (b * (k - 1)) (b * k) ∧
    p_value cdf RSSr RSSu n b k =
      1 - cdf (F_stat RSSr RSSu n b k) ((b * (k - 1) : ℕ) : ℚ)
        (n - ((b * k : ℕ) : ℚ) - 1) := by
  have hbk : b ≤ b * k := Nat.le_mul_of_pos_right b hk
  have hsub : b * (k - 1) = b * k - b := by
    cases k with
    | zero => omega
    | succ m => simp [Nat.mul_succ]
  have hcast : ((b * (k - 1) : ℕ) : ℚ) = ((b * k : ℕ) : ℚ) - (b : ℚ) := by
    rw [hsub, Nat.cast_sub hbk]
  constructor
  · unfold F_stat F_specForm dlmK
    rw [hcast]
  · unfold p_value dlmK
    rw [hcast]

/-- Witness for C1 at the counterexample's numbers: `b·(k−1)` = 6,
`b·k` = 8. -/
theorem C1_F_stat_dof_witness :
    F_stat 100 80 500 2 4 = F_specForm 100 80 500 6 8 :=
  (C1_F_stat_dof (fun _ _ _ => 0) 100 80 500 2 4 (by decide)).1

/-- A failed grid point leaves the running best of the max-Sharpe scan
unchanged. -/
theorem scanStep_none (rf : ℚ) (acc : Option (ℚ × List ℚ)) :
    scanStep rf acc none = acc := rfl

/-- The max-Sharpe fold only sees the successful grid points: failed points
are dropped and the scan continues. -/
theorem foldl_scanStep_reduceOption (rf : ℚ) :
    ∀ (rs : List (Option QPoint)) (acc : Option (ℚ × List ℚ)),
      rs.foldl (scanStep rf) acc = (rs.reduceOption.map some).foldl (scanStep rf) acc
  | [], _ => rfl
  | none :: tl, acc => by
    rw [List.foldl_cons, scanStep_none, List.reduceOption_cons_of_none]
    exact foldl_scanStep_reduceOption rf tl acc
  | some r :: tl, acc => by
    rw [List.foldl_cons, List.reduceOption_cons_of_some, List.map_cons, List.foldl_cons]
    exact foldl_scanStep_reduceOption rf tl (scanStep rf acc (some r))

/-- Claim C6 counterexample: a failed solve does not surface a failure.
`min_variance_portfolio` passes the solver's `None` through as a successful
return, and a max-Sharpe scan in which every grid point fails still returns
`ok` with no weights instead of raising a top-level error. -/
theorem C6_no_error_surfaced :
    surfacesError (min_variance_portfolio none) = false ∧
    min_variance_portfolio none = Except.ok none ∧
    surfacesError (max_sharpe_portfolio (13 / 200) [none, none, none]) = false ∧
    max_sharpe_portfolio (13 / 200) [none, none, none] = Except.ok none :=
  ⟨rfl, rfl, rfl, rfl⟩

/-- Claim C6 amended: `min_variance_portfolio` returns whatever the single
solve produced (a null result on failure) with no specific failure raised;
the max-Sharpe scan drops infeasible grid points and continues (its result
is a function of the successful points alone); and when no grid point
succeeds it returns a null weight series, not a top-level error. -/
theorem C6_solver_failure_handling (rf : ℚ) (rs : List (Option QPoint))
    (sr : Option (List ℚ)) :
    min_variance_portfolio sr = Except.ok sr ∧
    max_sharpe_portfolio rf rs = max_sharpe_portfolio rf (rs.reduceOption.map some) ∧
    (rs.reduceOption = [] → max_sharpe_portfolio rf rs = Except.ok none) := by
  refine ⟨rfl, ?_, ?_⟩
  · unfold max_sharpe_portfolio maxSharpeScan
    rw [foldl_scanStep_reduceOption rf rs none]
  · intro h
    unfold max_sharpe_portfolio maxSharpeScan
    rw [foldl_scanStep_reduceOption rf rs none, h]
    rfl

/-- Claim C7: when the per-bar strategy returns have zero variance the
Sharpe denominator is zero and the numpy-modelled quotient is a non-finite
sentinel (±inf or nan) — no exception; when a regressor's lag coefficients
sum to zero the source's explicit guard makes `weighted_lag` the NaN
sentinel (`none`).  `sq` abstracts the float square root (only `sq 0 = 0`
is assumed) and `c` stands for the float value of `sqrt(252)`. -/
theorem C7_degenerate_quotients (rs : List ℚ) (rf : ℚ) (sq : ℚ → ℚ) (c : ℚ)
    (lags betas : List ℚ) (hsq : sq 0 = 0) (hvar : sampleVar rs = 0)
    (hsum : betas.sum = 0) :
    isFiniteNP (sharpeNP (NPFloat.num (ann_return rs)) (NPFloat.num rf)
      (stdDevNP sq c rs)) = false ∧
    weighted_lag lags betas = none := by
  constructor
  · have h0 : sq (sampleVar rs) * c * 100 = 0 := by
      rw [hvar, hsq]
      ring
    simp only [stdDevNP, h0, sharpeNP, npSub, npDiv]
    norm_num
    split_ifs <;> rfl
  · simp [weighted_lag, hsum]

/-- Witness for C7: constant returns and coefficients summing to zero. -/
theorem C7_degenerate_quotients_witness :
    isFiniteNP (sharpeNP (NPFloat.num (ann_return [5, 5])) (NPFloat.num (13 / 200))
      (stdDevNP id 16 [5, 5])) = false ∧
    weighted_lag [1, 2] [1, -1] = none :=
  C7_degenerate_quotients [5, 5] (13 / 200) id 16 [1, 2] [1, -1] rfl
    (by with_unfolding_all decide) (by with_unfolding_all decide)

end FinAnalytics
